import Mathlib

/-
Verification of the binance-mcp-community signed-request core.

The definitions below are a shallow embedding of src/binance-client.ts
(the `BinanceClient` class: query canonicalization, HMAC-SHA256 signing,
the public / signed / user-stream transports and the operation facade)
and of src/server.ts (the tool dispatch and credential gate).

JavaScript runtime values are modelled by `JVal`; machine integers are
Lean `Int`/`Nat` with explicit `% 2 ^ 32` where SHA-256 needs 32-bit
wrap-around; the platform primitives the source relies on
(`URLSearchParams`, `TextEncoder`, `crypto.subtle` HMAC-SHA256,
`fetch`) are modelled concretely per their specifications, except
`JSON.parse`, which every transport takes as an explicit parameter
`parse : String -> Option JVal`, and the network, which is an explicit
parameter `env : HttpRequest -> HttpResponse`.
-/

/-- JavaScript runtime values as this client manipulates them: tool and
request parameters (`Record<string, unknown>`), parsed JSON response
bodies, and the scalars interpolated into query strings.  `undefined`
models `undefined`. -/
inductive JVal where
  | str (s : String)
  | num (n : Int)
  | bool (b : Bool)
  | null
  | undefined
  | obj (fields : List (String × JVal))
  | arr (elems : List JVal)

/-- A JS object viewed as its ordered key/value entries
(`Object.entries` order: insertion order). -/
abbrev ParamSet := List (String × JVal)

mutual

/-- JavaScript `String(v)` conversion, as applied by
`buildQueryString` to every parameter value. -/
def jsToString : JVal → String
  | .str s => s
  | .num n => toString n
  | .bool b => if b then "true" else "false"
  | .null => "null"
  | .undefined => "undefined"
  | .obj _ => "[object Object]"
  | .arr xs => jsArrJoin xs

/-- `Array.prototype.toString`: elements joined with commas. -/
def jsArrJoin : List JVal → String
  | [] => ""
  | [x] => jsArrElem x
  | x :: xs => jsArrElem x ++ "," ++ jsArrJoin xs

/-- One array element under `Array.prototype.join`:
null/undefined elements become the empty string. -/
def jsArrElem : JVal → String
  | .str s => s
  | .num n => toString n
  | .bool b => if b then "true" else "false"
  | .null => ""
  | .undefined => ""
  | .obj _ => "[object Object]"
  | .arr xs => jsArrJoin xs

end

/-- JavaScript truthiness, used by `||` and `!` in the source. -/
def jsTruthy : JVal → Bool
  | .str s => !(s == "")
  | .num n => !(n == 0)
  | .bool b => b
  | .null => false
  | .undefined => false
  | .obj _ => true
  | .arr _ => true

/-- JavaScript `a || b`. -/
def jsOrElse (a b : JVal) : JVal := if jsTruthy a then a else b

/-- JS object property read by key: the stored value, or `undefined`
when the key is missing (first occurrence wins, matching object
semantics where keys are unique). -/
def lookupJs (l : ParamSet) (k : String) : JVal :=
  match l.find? (fun p => p.1 == k) with
  | some p => p.2
  | none => .undefined

/-- JS property access `v[k]` for the accesses this client performs
(`data.serverTime`, `error.msg`, `error.code`, `error.message`). -/
def jsField (v : JVal) (k : String) : JVal :=
  match v with
  | .obj fs => lookupJs fs k
  | _ => .undefined

/-- UTF-8 bytes of one character; this is what `TextEncoder.encode` and
the `URLSearchParams` serializer operate over. -/
def utf8Bytes (c : Char) : List Nat :=
  let n := c.toNat
  if n < 128 then [n]
  else if n < 2048 then [192 + n / 64, 128 + n % 64]
  else if n < 65536 then [224 + n / 4096, 128 + (n / 64) % 64, 128 + n % 64]
  else [240 + n / 262144, 128 + (n / 4096) % 64, 128 + (n / 64) % 64, 128 + n % 64]

/-- UTF-8 encoding of a string (`new TextEncoder().encode(s)`). -/
def utf8Encode (s : String) : List Nat := (s.data.map utf8Bytes).flatten

/-- Bytes that `application/x-www-form-urlencoded` serialization leaves
unescaped: ASCII alphanumerics and `*`, `-`, `.`, `_`. -/
def formSafeByte (b : Nat) : Bool :=
  (48 ≤ b && b ≤ 57) || (65 ≤ b && b ≤ 90) || (97 ≤ b && b ≤ 122) ||
  b == 42 || b == 45 || b == 46 || b == 95

/-- Uppercase hexadecimal digit, for percent escapes. -/
def hexDigitUpper (n : Nat) : Char :=
  if n < 10 then Char.ofNat (48 + n) else Char.ofNat (55 + n)

/-- Serialization of one byte under form encoding: space becomes `+`,
safe bytes stand for themselves, everything else is `%XX`. -/
def formEncodeByte (b : Nat) : String :=
  if b == 32 then "+"
  else if formSafeByte b then String.mk [Char.ofNat b]
  else String.mk ['%', hexDigitUpper (b / 16 % 16), hexDigitUpper (b % 16)]

/-- Concatenation of a list of strings. -/
def concatList : List String → String
  | [] => ""
  | s :: rest => s ++ concatList rest

/-- Percent-encoding of one string under the
`application/x-www-form-urlencoded` rules `URLSearchParams` uses. -/
def formEncode (s : String) : String := concatList ((utf8Encode s).map formEncodeByte)

/-- Join of query components with `&`. -/
def joinAmp : List String → String
  | [] => ""
  | [x] => x
  | x :: xs => x ++ "&" ++ joinAmp xs

/-- `new URLSearchParams(entries).toString()`: serializes the entries in
order as form-encoded `key=value` pairs joined by `&`. -/
def urlSearchParamsToString (entries : List (String × String)) : String :=
  joinAmp (entries.map (fun e => formEncode e.1 ++ "=" ++ formEncode e.2))

/-- The filter `buildQueryString` applies:
`v !== undefined && v !== null`. -/
def keepVal : JVal → Bool
  | .undefined => false
  | .null => false
  | _ => true

/-- `BinanceClient.buildQueryString`: filter out null/undefined values,
stringify the rest, and serialize with `URLSearchParams`. -/
def buildQueryString (params : ParamSet) : String :=
  let entries := (params.filter (fun p => keepVal p.2)).map (fun p => (p.1, jsToString p.2))
  urlSearchParamsToString entries

/-- Absence of a value as the spec words it (null or undefined —
not the empty string). -/
def isAbsent : JVal → Bool
  | .null => true
  | .undefined => true
  | _ => false

/-- The canonicalizer exactly as the spec describes it (for the
refinement comparison with `buildQueryString`): drop absent entries,
stringify, form-encode, join `key=value` pairs with `&` in insertion
order. -/
def canonicalSpec (params : ParamSet) : String :=
  joinAmp ((params.filter (fun p => !(isAbsent p.2))).map
    (fun p => formEncode p.1 ++ "=" ++ formEncode (jsToString p.2)))

/-- The individual `key=value` components of the canonical query string
of a parameter set, in order. -/
def queryPieces (params : ParamSet) : List String :=
  (params.filter (fun p => keepVal p.2)).map
    (fun p => formEncode p.1 ++ "=" ++ formEncode (jsToString p.2))

/-- Truncation to a 32-bit word. -/
def w32 (n : Nat) : Nat := n % 4294967296

/-- 32-bit right rotation (inputs below `2 ^ 32`). -/
def rotr (n x : Nat) : Nat := w32 ((x >>> n) ||| (x <<< (32 - n)))

/-- 32-bit complement. -/
def cplt32 (x : Nat) : Nat := 4294967295 ^^^ x

/-- The eight working variables of SHA-256. -/
structure H8 where
  a : Nat
  b : Nat
  c : Nat
  d : Nat
  e : Nat
  f : Nat
  g : Nat
  h : Nat

/-- SHA-256 initial hash value (FIPS 180-4, in decimal). -/
def initialH : H8 :=
  ⟨1779033703, 3144134277, 1013904242, 2773480762,
   1359893119, 2600822924, 528734635, 1541459225⟩

/-- SHA-256 round constants (FIPS 180-4, in decimal). -/
def K256 : List Nat :=
  [1116352408, 1899447441, 3049323471, 3921009573, 961987163, 1508970993,
   2453635748, 2870763221, 3624381080, 310598401, 607225278, 1426881987,
   1925078388, 2162078206, 2614888103, 3248222580, 3835390401, 4022224774,
   264347078, 604807628, 770255983, 1249150122, 1555081692, 1996064986,
   2554220882, 2821834349, 2952996808, 3210313671, 3336571891, 3584528711,
   113926993, 338241895, 666307205, 773529912, 1294757372, 1396182291,
   1695183700, 1986661051, 2177026350, 2456956037, 2730485921, 2820302411,
   3259730800, 3345764771, 3516065817, 3600352804, 4094571909, 275423344,
   430227734, 506948616, 659060556, 883997877, 958139571, 1322822218,
   1537002063, 1747873779, 1955562222, 2024104815, 2227730452, 2361852424,
   2428436474, 2756734187, 3204031479, 3329325298]

def smallSigma0 (x : Nat) : Nat := rotr 7 x ^^^ rotr 18 x ^^^ (x >>> 3)

def smallSigma1 (x : Nat) : Nat := rotr 17 x ^^^ rotr 19 x ^^^ (x >>> 10)

def bigSigma0 (x : Nat) : Nat := rotr 2 x ^^^ rotr 13 x ^^^ rotr 22 x

def bigSigma1 (x : Nat) : Nat := rotr 6 x ^^^ rotr 11 x ^^^ rotr 25 x

/-- Big-endian bytes of a number, fixed width `k`. -/
def natToBytesBE : Nat → Nat → List Nat
  | 0, _ => []
  | k + 1, n => natToBytesBE k (n / 256) ++ [n % 256]

/-- Big-endian 32-bit words from a byte list. -/
def bytesToWords : List Nat → List Nat
  | b0 :: b1 :: b2 :: b3 :: rest =>
    (b0 * 16777216 + b1 * 65536 + b2 * 256 + b3) :: bytesToWords rest
  | _ => []

/-- Extend the 16 words of a block to the 64-entry message schedule. -/
def extendSchedule (ws : List Nat) : List Nat :=
  (List.range 48).foldl
    (fun w i =>
      w ++ [w32 (smallSigma1 (w.getD (i + 14) 0) + w.getD (i + 9) 0 +
                 smallSigma0 (w.getD (i + 1) 0) + w.getD i 0)])
    ws

/-- One SHA-256 compression round. -/
def compressRound (st : H8) (k w : Nat) : H8 :=
  let t1 := w32 (st.h + bigSigma1 st.e + ((st.e &&& st.f) ^^^ (cplt32 st.e &&& st.g)) + k + w)
  let t2 := w32 (bigSigma0 st.a + ((st.a &&& st.b) ^^^ (st.a &&& st.c) ^^^ (st.b &&& st.c)))
  ⟨w32 (t1 + t2), st.a, st.b, st.c, w32 (st.d + t1), st.e, st.f, st.g⟩

/-- Process one 64-byte block. -/
def processBlock (st : H8) (block : List Nat) : H8 :=
  let ws := extendSchedule (bytesToWords block)
  let r := (K256.zip ws).foldl (fun s kw => compressRound s kw.1 kw.2) st
  ⟨w32 (st.a + r.a), w32 (st.b + r.b), w32 (st.c + r.c), w32 (st.d + r.d),
   w32 (st.e + r.e), w32 (st.f + r.f), w32 (st.g + r.g), w32 (st.h + r.h)⟩

/-- SHA-256 padding: append `0x80`, zeros to 56 mod 64, then the
64-bit big-endian bit length. -/
def padMessage (msg : List Nat) : List Nat :=
  msg ++ 128 :: List.replicate ((119 - msg.length % 64) % 64) 0
      ++ natToBytesBE 8 (msg.length * 8)

/-- Split into 64-byte blocks (fuel-driven; the fuel is an upper bound
on the number of blocks). -/
def chunksOf64 : Nat → List Nat → List (List Nat)
  | 0, _ => []
  | _, [] => []
  | n + 1, l => l.take 64 :: chunksOf64 n (l.drop 64)

/-- The digest bytes of a final state. -/
def digestBytes (st : H8) : List Nat :=
  natToBytesBE 4 st.a ++ natToBytesBE 4 st.b ++ natToBytesBE 4 st.c ++ natToBytesBE 4 st.d ++
  natToBytesBE 4 st.e ++ natToBytesBE 4 st.f ++ natToBytesBE 4 st.g ++ natToBytesBE 4 st.h

/-- SHA-256 of a byte list, as a list of 32 bytes. -/
def sha256 (msg : List Nat) : List Nat :=
  let padded := padMessage msg
  digestBytes ((chunksOf64 padded.length padded).foldl processBlock initialH)

/-- HMAC key, hashed if longer than the 64-byte block and zero-padded
to block length. -/
def hmacBlockKey (key : List Nat) : List Nat :=
  let k0 := if key.length > 64 then sha256 key else key
  k0 ++ List.replicate (64 - k0.length) 0

/-- HMAC-SHA256 over byte lists. -/
def hmacSha256 (key msg : List Nat) : List Nat :=
  let k := hmacBlockKey key
  sha256 ((k.map (fun b => b ^^^ 92)) ++ sha256 ((k.map (fun b => b ^^^ 54)) ++ msg))

/-- Lowercase hexadecimal digit. -/
def hexDigit (n : Nat) : Char :=
  if n < 10 then Char.ofNat (48 + n) else Char.ofNat (87 + n)

/-- One byte rendered as two lowercase hex characters; for bytes this
equals the source's `b.toString(16).padStart(2, '0')`. -/
def byteHexString (b : Nat) : String :=
  String.mk [hexDigit (b / 16 % 16), hexDigit (b % 16)]

/-- `hmacSha256Hex` from src/binance-client.ts: HMAC-SHA256 of the
UTF-8 data keyed by the UTF-8 key, rendered as lowercase hex. -/
def hmacSha256Hex (key data : String) : String :=
  concatList ((hmacSha256 (utf8Encode key) (utf8Encode data)).map byteHexString)

/-- Replace the value of every entry with the given key
(helper for `setKey` past the first occurrence). -/
def mapSet : ParamSet → String → JVal → ParamSet
  | [], _, _ => []
  | p :: rest, k, v => (if p.1 == k then (k, v) else p) :: mapSet rest k v

/-- JS object-literal update `{...l, k: v}` restricted to the key `k`:
if the key already exists its value is replaced at its original
position, otherwise the entry is appended at the end. -/
def setKey : ParamSet → String → JVal → ParamSet
  | [], k, v => [(k, v)]
  | p :: rest, k, v =>
    if p.1 == k then (k, v) :: mapSet rest k v else p :: setKey rest k v

/-- The `recvWindow` value of the signed envelope:
`(params?.recvWindow as number) || 5000`. -/
def recvWindowVal (params : ParamSet) : JVal :=
  if jsTruthy (lookupJs params "recvWindow") then lookupJs params "recvWindow"
  else .num 5000

/-- The merged parameter object of `signedRequest`:
`{...params, timestamp: serverTime, recvWindow: (params?.recvWindow as number) || 5000}`. -/
def mergeEnvelope (params : ParamSet) (serverTime : JVal) : ParamSet :=
  setKey (setKey params "timestamp" serverTime) "recvWindow" (recvWindowVal params)

/-- The signed query string of `signedRequest`: the canonical query of
the merged envelope followed by `&signature=` and the MAC of exactly
that canonical query. -/
def signedQueryString (secret : String) (params : ParamSet) (serverTime : JVal) : String :=
  let queryString := buildQueryString (mergeEnvelope params serverTime)
  queryString ++ "&signature=" ++ hmacSha256Hex secret queryString

/-- The credential pair (`BinanceConfig` in src/types.ts, and the same
shape as `BinanceMcpConfig` in src/server.ts). -/
structure BinanceConfig where
  apiKey : String
  secretKey : String

/-- An outgoing HTTP request as handed to `fetch`. -/
structure HttpRequest where
  method : String
  url : String
  headers : List (String × String)
  body : Option String

/-- An HTTP response as observed through the `fetch` Response API. -/
structure HttpResponse where
  status : Nat
  statusText : String
  body : String

/-- `Response.ok`: status in the range 200-299. -/
def HttpResponse.isOk (r : HttpResponse) : Bool :=
  decide (200 ≤ r.status) && decide (r.status < 300)

/-- The network, as a deterministic map from requests to responses. -/
abbrev Env := HttpRequest → HttpResponse

/-- `JSON.parse`, as an explicit model parameter: `none` models a thrown
SyntaxError. -/
abbrev JsonParse := String → Option JVal

/-- The fixed base endpoint of the client. -/
def baseUrl : String := "https://api.binance.com"

/-- The marker message for a `JSON.parse` SyntaxError escaping on a
success-status response (its exact text is engine-specific). -/
def jsonSyntaxError : String := "SyntaxError: JSON.parse failed"

/-- The thrown error message: `Binance API Error status: detail`. -/
def errorMessage (status : Nat) (detail : String) : String :=
  "Binance API Error " ++ toString status ++ ": " ++ detail

/-- Detail string of `publicGet` errors:
`error.msg || error.message || response.statusText`. -/
def errDetailPublic (e : JVal) (statusText : String) : String :=
  jsToString (jsOrElse (jsField e "msg") (jsOrElse (jsField e "message") (.str statusText)))

/-- Detail string of `signedRequest`/`userStreamRequest` errors:
`error.msg || error.code || response.statusText`. -/
def errDetailAuth (e : JVal) (statusText : String) : String :=
  jsToString (jsOrElse (jsField e "msg") (jsOrElse (jsField e "code") (.str statusText)))

/-- URL suffix for optional parameters: `?` plus the canonical query
when params are present and canonicalize to a nonempty string. -/
def optionalQuery (params : Option ParamSet) : String :=
  match params with
  | some p => if buildQueryString p == "" then "" else "?" ++ buildQueryString p
  | none => ""

/-- The request issued by `publicGet`: a plain GET with no headers. -/
def publicRequestOf (endpoint : String) (params : Option ParamSet) : HttpRequest :=
  ⟨"GET", baseUrl ++ endpoint ++ optionalQuery params, [], none⟩

/-- `BinanceClient.publicGet`: build the URL, fetch, map non-success
statuses to a thrown `Binance API Error`, decode the JSON body
otherwise.  Returns the outcome and the list of requests issued. -/
def publicGet (env : Env) (parse : JsonParse) (endpoint : String)
    (params : Option ParamSet) : Except String JVal × List HttpRequest :=
  let req := publicRequestOf endpoint params
  let resp := env req
  if resp.isOk then
    match parse resp.body with
    | some j => (.ok j, [req])
    | none => (.error jsonSyntaxError, [req])
  else
    (.error (errorMessage resp.status
      (errDetailPublic ((parse resp.body).getD (.obj [])) resp.statusText)), [req])

/-- The unauthenticated server-time request `getServerTime` issues. -/
def timeRequest : HttpRequest := publicRequestOf "/api/v3/time" none

/-- The main request of `signedRequest`: GET/DELETE carry the signed
query string in the URL and no body; POST carries it as the
form-urlencoded body and the URL has no query; the API-key header is
always attached. -/
def signedMainRequest (cfg : BinanceConfig) (method endpoint : String)
    (params : ParamSet) (serverTime : JVal) : HttpRequest :=
  let signedQs := signedQueryString cfg.secretKey params serverTime
  ⟨method,
   if method == "GET" || method == "DELETE" then baseUrl ++ endpoint ++ "?" ++ signedQs
   else baseUrl ++ endpoint,
   if method == "POST" then
     [("X-MBX-APIKEY", cfg.apiKey), ("Content-Type", "application/x-www-form-urlencoded")]
   else [("X-MBX-APIKEY", cfg.apiKey)],
   if method == "POST" then some signedQs else none⟩

/-- Outcome of the main call of `signedRequest` (and of
`userStreamRequest`, which shares this response handling): non-success
statuses throw a `Binance API Error`; a success with an empty body
yields `{}` without attempting `JSON.parse`; otherwise the body is
parsed, a parse failure being thrown. -/
def authResponseOutcome (parse : JsonParse) (resp : HttpResponse) : Except String JVal :=
  if resp.isOk then
    if resp.body == "" then .ok (.obj [])
    else
      match parse resp.body with
      | some j => .ok j
      | none => .error jsonSyntaxError
  else
    .error (errorMessage resp.status
      (errDetailAuth ((parse resp.body).getD (.obj [])) resp.statusText))

/-- `BinanceClient.signedRequest`: fetch the server time via
`publicGet('/api/v3/time')` (propagating its failure), merge, sign and
dispatch the main request, then decode per `authResponseOutcome`. -/
def signedRequest (cfg : BinanceConfig) (env : Env) (parse : JsonParse)
    (method endpoint : String) (params : ParamSet) :
    Except String JVal × List HttpRequest :=
  match publicGet env parse "/api/v3/time" none with
  | (.error e, tr) => (.error e, tr)
  | (.ok timeJson, tr) =>
    let req := signedMainRequest cfg method endpoint params (jsField timeJson "serverTime")
    (authResponseOutcome parse (env req), tr ++ [req])

/-- The request issued by `userStreamRequest`: optional query in the
URL, the API-key header, no signature and no body. -/
def userStreamRequestOf (cfg : BinanceConfig) (method endpoint : String)
    (params : Option ParamSet) : HttpRequest :=
  ⟨method, baseUrl ++ endpoint ++ optionalQuery params,
   [("X-MBX-APIKEY", cfg.apiKey)], none⟩

/-- `BinanceClient.userStreamRequest`: API key only, no signature,
same response handling as `signedRequest`. -/
def userStreamRequest (cfg : BinanceConfig) (env : Env) (parse : JsonParse)
    (method endpoint : String) (params : Option ParamSet) :
    Except String JVal × List HttpRequest :=
  let req := userStreamRequestOf cfg method endpoint params
  (authResponseOutcome parse (env req), [req])

/-- `client.ping()`. -/
def ping (env : Env) (parse : JsonParse) : Except String JVal × List HttpRequest :=
  publicGet env parse "/api/v3/ping" none

/-- `client.getServerTimePublic()`. -/
def getServerTimePublic (env : Env) (parse : JsonParse) :
    Except String JVal × List HttpRequest :=
  publicGet env parse "/api/v3/time" none

/-- `client.getExchangeInfo(params?)`. -/
def getExchangeInfo (env : Env) (parse : JsonParse) (params : Option ParamSet) :
    Except String JVal × List HttpRequest :=
  publicGet env parse "/api/v3/exchangeInfo" params

/-- `client.getOrderBook(params)`. -/
def getOrderBook (env : Env) (parse : JsonParse) (params : ParamSet) :
    Except String JVal × List HttpRequest :=
  publicGet env parse "/api/v3/depth" (some params)

/-- `client.getRecentTrades(params)`. -/
def getRecentTrades (env : Env) (parse : JsonParse) (params : ParamSet) :
    Except String JVal × List HttpRequest :=
  publicGet env parse "/api/v3/trades" (some params)

/-- `client.getAggregateTrades(params)`. -/
def getAggregateTrades (env : Env) (parse : JsonParse) (params : ParamSet) :
    Except String JVal × List HttpRequest :=
  publicGet env parse "/api/v3/aggTrades" (some params)

/-- `client.getKlines(params)`. -/
def getKlines (env : Env) (parse : JsonParse) (params : ParamSet) :
    Except String JVal × List HttpRequest :=
  publicGet env parse "/api/v3/klines" (some params)

/-- `client.getAvgPrice(params)`. -/
def getAvgPrice (env : Env) (parse : JsonParse) (params : ParamSet) :
    Except String JVal × List HttpRequest :=
  publicGet env parse "/api/v3/avgPrice" (some params)

/-- `client.getTicker24hr(params?)`. -/
def getTicker24hr (env : Env) (parse : JsonParse) (params : Option ParamSet) :
    Except String JVal × List HttpRequest :=
  publicGet env parse "/api/v3/ticker/24hr" params

/-- `client.getTickerPrice(params?)`. -/
def getTickerPrice (env : Env) (parse : JsonParse) (params : Option ParamSet) :
    Except String JVal × List HttpRequest :=
  publicGet env parse "/api/v3/ticker/price" params

/-- `client.getBookTicker(params?)`. -/
def getBookTicker (env : Env) (parse : JsonParse) (params : Option ParamSet) :
    Except String JVal × List HttpRequest :=
  publicGet env parse "/api/v3/ticker/bookTicker" params

/-- `client.newOrder(params)`. -/
def newOrder (cfg : BinanceConfig) (env : Env) (parse : JsonParse) (params : ParamSet) :
    Except String JVal × List HttpRequest :=
  signedRequest cfg env parse "POST" "/api/v3/order" params

/-- `client.testOrder(params)` (the dry-run order validation path). -/
def testOrder (cfg : BinanceConfig) (env : Env) (parse : JsonParse) (params : ParamSet) :
    Except String JVal × List HttpRequest :=
  signedRequest cfg env parse "POST" "/api/v3/order/test" params

/-- `client.queryOrder(params)`. -/
def queryOrder (cfg : BinanceConfig) (env : Env) (parse : JsonParse) (params : ParamSet) :
    Except String JVal × List HttpRequest :=
  signedRequest cfg env parse "GET" "/api/v3/order" params

/-- `client.cancelOrder(params)`. -/
def cancelOrder (cfg : BinanceConfig) (env : Env) (parse : JsonParse) (params : ParamSet) :
    Except String JVal × List HttpRequest :=
  signedRequest cfg env parse "DELETE" "/api/v3/order" params

/-- `client.cancelAllOrders(params)`. -/
def cancelAllOrders (cfg : BinanceConfig) (env : Env) (parse : JsonParse) (params : ParamSet) :
    Except String JVal × List HttpRequest :=
  signedRequest cfg env parse "DELETE" "/api/v3/openOrders" params

/-- `client.getOpenOrders(params?)` (an absent object spreads to `{}`). -/
def getOpenOrders (cfg : BinanceConfig) (env : Env) (parse : JsonParse)
    (params : Option ParamSet) : Except String JVal × List HttpRequest :=
  signedRequest cfg env parse "GET" "/api/v3/openOrders" (params.getD [])

/-- `client.getAllOrders(params)`. -/
def getAllOrders (cfg : BinanceConfig) (env : Env) (parse : JsonParse) (params : ParamSet) :
    Except String JVal × List HttpRequest :=
  signedRequest cfg env parse "GET" "/api/v3/allOrders" params

/-- `client.getAccountInfo(params?)`. -/
def getAccountInfo (cfg : BinanceConfig) (env : Env) (parse : JsonParse)
    (params : Option ParamSet) : Except String JVal × List HttpRequest :=
  signedRequest cfg env parse "GET" "/api/v3/account" (params.getD [])

/-- `client.getMyTrades(params)`. -/
def getMyTrades (cfg : BinanceConfig) (env : Env) (parse : JsonParse) (params : ParamSet) :
    Except String JVal × List HttpRequest :=
  signedRequest cfg env parse "GET" "/api/v3/myTrades" params

/-- `client.createListenKey()`. -/
def createListenKey (cfg : BinanceConfig) (env : Env) (parse : JsonParse) :
    Except String JVal × List HttpRequest :=
  userStreamRequest cfg env parse "POST" "/api/v3/userDataStream" none

/-- `client.keepaliveListenKey(listenKey)`. -/
def keepaliveListenKey (cfg : BinanceConfig) (env : Env) (parse : JsonParse)
    (listenKey : JVal) : Except String JVal × List HttpRequest :=
  userStreamRequest cfg env parse "PUT" "/api/v3/userDataStream"
    (some [("listenKey", listenKey)])

/-- `client.closeListenKey(listenKey)`. -/
def closeListenKey (cfg : BinanceConfig) (env : Env) (parse : JsonParse)
    (listenKey : JVal) : Except String JVal × List HttpRequest :=
  userStreamRequest cfg env parse "DELETE" "/api/v3/userDataStream"
    (some [("listenKey", listenKey)])

/-- The destructuring `const { _fields, ...params } = args` in
`handleToolCall`: the argument mapping with the `_fields` key removed
and everything else untouched. -/
def stripFields (args : ParamSet) : ParamSet :=
  args.filter (fun p => !(p.1 == "_fields"))

/-- `Object.keys(params).length ? params : undefined`. -/
def nonemptyOrNone (params : ParamSet) : Option ParamSet :=
  if params.isEmpty then none else some params

/-- `handleToolCall` from src/server.ts: strip `_fields`, then dispatch
by tool name to the facade. -/
def handleToolCall (cfg : BinanceConfig) (env : Env) (parse : JsonParse)
    (toolName : String) (args : ParamSet) : Except String JVal × List HttpRequest :=
  let params := stripFields args
  match toolName with
  | "bn_ping" => ping env parse
  | "bn_server_time" => getServerTimePublic env parse
  | "bn_exchange_info" => getExchangeInfo env parse (nonemptyOrNone params)
  | "bn_order_book" => getOrderBook env parse params
  | "bn_recent_trades" => getRecentTrades env parse params
  | "bn_aggregate_trades" => getAggregateTrades env parse params
  | "bn_klines" => getKlines env parse params
  | "bn_avg_price" => getAvgPrice env parse params
  | "bn_ticker_24hr" => getTicker24hr env parse (nonemptyOrNone params)
  | "bn_ticker_price" => getTickerPrice env parse (nonemptyOrNone params)
  | "bn_book_ticker" => getBookTicker env parse (nonemptyOrNone params)
  | "bn_new_order" => newOrder cfg env parse params
  | "bn_test_order" => testOrder cfg env parse params
  | "bn_query_order" => queryOrder cfg env parse params
  | "bn_cancel_order" => cancelOrder cfg env parse params
  | "bn_cancel_all_orders" => cancelAllOrders cfg env parse params
  | "bn_open_orders" => getOpenOrders cfg env parse (nonemptyOrNone params)
  | "bn_all_orders" => getAllOrders cfg env parse params
  | "bn_account_info" => getAccountInfo cfg env parse (nonemptyOrNone params)
  | "bn_my_trades" => getMyTrades cfg env parse params
  | "bn_create_listen_key" => createListenKey cfg env parse
  | "bn_keepalive_listen_key" => keepaliveListenKey cfg env parse (lookupJs params "listenKey")
  | "bn_close_listen_key" => closeListenKey cfg env parse (lookupJs params "listenKey")
  | _ => (.error ("Unknown tool: " ++ toolName), [])

/-- The eleven public (credential-free) tools, from src/server.ts. -/
def publicTools : List String :=
  ["bn_ping", "bn_server_time", "bn_exchange_info",
   "bn_order_book", "bn_recent_trades", "bn_aggregate_trades",
   "bn_klines", "bn_avg_price", "bn_ticker_24hr", "bn_ticker_price",
   "bn_book_ticker"]

/-- An effective credential:
`config?.apiKey || args.BINANCE_API_KEY` (and likewise for the
secret key) — the configured string when truthy, otherwise whatever
the caller supplied in the arguments. -/
def effectiveCred (configured : Option String) (fromArgs : JVal) : JVal :=
  match configured with
  | some s => if s == "" then fromArgs else .str s
  | none => fromArgs

/-- A credential value coerced to the string the client config stores
(`apiKey || ''`). -/
def credString (v : JVal) : String :=
  if jsTruthy v then jsToString v else ""

/-- The error text returned when credentials are missing. -/
def credErrorText : String :=
  "Error: BINANCE_API_KEY and BINANCE_SECRET_KEY are required for this operation. Set them as environment variables or pass via config."

/-- The per-tool-call handler registered in `createServer`: resolve the
effective credentials, reject non-public tools without both
credentials before any client call, otherwise build the client and
dispatch through `handleToolCall`. -/
def toolCallGate (config : Option BinanceConfig) (env : Env) (parse : JsonParse)
    (toolName : String) (args : ParamSet) : Except String JVal × List HttpRequest :=
  let apiKey := effectiveCred (config.map (fun c => c.apiKey)) (lookupJs args "BINANCE_API_KEY")
  let secretKey :=
    effectiveCred (config.map (fun c => c.secretKey)) (lookupJs args "BINANCE_SECRET_KEY")
  if !(publicTools.contains toolName) && (!(jsTruthy apiKey) || !(jsTruthy secretKey)) then
    (.error credErrorText, [])
  else
    handleToolCall ⟨credString apiKey, credString secretKey⟩ env parse toolName args

/-- Lowercase hexadecimal character. -/
def isLowerHexChar (c : Char) : Bool :=
  ('0' ≤ c && c ≤ '9') || ('a' ≤ c && c ≤ 'f')

/-- Concrete JSON value of the server-time response used by witnesses. -/
def timeJsonVal : JVal := .obj [("serverTime", .num 1700000000000)]

/-- Witness parse function: decodes the fixed time body, a fixed
error body (the exchange's invalid-symbol error), and nothing else. -/
def parseW : JsonParse := fun s =>
  if s == "TIMEJSON" then some timeJsonVal
  else if s == "ERRJSON" then
    some (.obj [("code", .num (-1121)), ("msg", .str "Invalid symbol.")])
  else none

/-- Witness network: the (GET) time call succeeds; every other request
gets a 200 with an empty body. -/
def envMainEmpty : Env := fun r =>
  if r.method == "GET" then ⟨200, "OK", "TIMEJSON"⟩ else ⟨200, "OK", ""⟩

/-- Witness network: the time call succeeds; every other request gets a
200 whose body is not valid JSON. -/
def envMainBad : Env := fun r =>
  if r.method == "GET" then ⟨200, "OK", "TIMEJSON"⟩ else ⟨200, "OK", "NOTJSON"⟩

/-- Witness network: the time call succeeds; every other request gets a
400 with the exchange's invalid-symbol JSON error body. -/
def envMainErr400 : Env := fun r =>
  if r.method == "GET" then ⟨200, "OK", "TIMEJSON"⟩ else ⟨400, "Bad Request", "ERRJSON"⟩

/-- Witness network: every request gets a 400 with the exchange's
invalid-symbol JSON error body. -/
def envConst400 : Env := fun _ => ⟨400, "Bad Request", "ERRJSON"⟩


theorem lookupJs_cons (p : String × JVal) (l : ParamSet) (k : String) :
    lookupJs (p :: l) k = if p.1 == k then p.2 else lookupJs l k := by
  simp only [lookupJs, List.find?]
  cases h : p.1 == k <;> simp [h]

theorem joinAmp_append_last (xs : List String) (y : String) (h : xs ≠ []) :
    joinAmp (xs ++ [y]) = joinAmp xs ++ "&" ++ y := by
  induction xs with
  | nil => exact absurd rfl h
  | cons a t ih =>
    cases t with
    | nil => rfl
    | cons b t2 =>
      have h2 : joinAmp ((b :: t2) ++ [y]) = joinAmp (b :: t2) ++ "&" ++ y :=
        ih (List.cons_ne_nil b t2)
      show a ++ "&" ++ joinAmp ((b :: t2) ++ [y]) = (a ++ "&" ++ joinAmp (b :: t2)) ++ "&" ++ y
      rw [h2]
      simp [String.append_assoc]

theorem buildQueryString_eq_pieces (P : ParamSet) :
    buildQueryString P = joinAmp (queryPieces P) := by
  simp only [buildQueryString, urlSearchParamsToString, queryPieces, List.map_map]
  rfl

theorem lookup_mapSet_other (l : ParamSet) (k k2 : String) (v : JVal) (h : k ≠ k2) :
    lookupJs (mapSet l k2 v) k = lookupJs l k := by
  induction l with
  | nil => rfl
  | cons p rest ih =>
    cases hp : p.1 == k2 with
    | true =>
      have hpk : p.1 = k2 := eq_of_beq hp
      have hk2 : (k2 == k) = false := beq_eq_false_iff_ne.mpr (Ne.symm h)
      have hpkk : (p.1 == k) = false := by rw [hpk]; exact hk2
      simp [mapSet, hp, lookupJs_cons, hk2, hpkk, ih]
    | false =>
      simp only [mapSet, hp, if_false, lookupJs_cons]
      cases hq : p.1 == k <;> simp [hq, ih]

theorem lookup_setKey_self (l : ParamSet) (k : String) (v : JVal) :
    lookupJs (setKey l k v) k = v := by
  induction l with
  | nil => simp [setKey, lookupJs_cons]
  | cons p rest ih =>
    cases hp : p.1 == k with
    | true => simp [setKey, hp, lookupJs_cons]
    | false => simp [setKey, hp, lookupJs_cons, ih]

theorem lookup_setKey_other (l : ParamSet) (k k2 : String) (v : JVal) (h : k ≠ k2) :
    lookupJs (setKey l k2 v) k = lookupJs l k := by
  induction l with
  | nil =>
    have hk2 : (k2 == k) = false := beq_eq_false_iff_ne.mpr (Ne.symm h)
    simp [setKey, lookupJs_cons, hk2, lookupJs]
  | cons p rest ih =>
    cases hp : p.1 == k2 with
    | true =>
      have hpk : p.1 = k2 := eq_of_beq hp
      have hk2 : (k2 == k) = false := beq_eq_false_iff_ne.mpr (Ne.symm h)
      have hpkk : (p.1 == k) = false := by rw [hpk]; exact hk2
      simp [setKey, hp, lookupJs_cons, hk2, hpkk, lookup_mapSet_other rest k k2 v h]
    | false =>
      simp only [setKey, hp, if_false, lookupJs_cons]
      cases hq : p.1 == k <;> simp [hq, lookupJs_cons, ih]

theorem mapSet_mapSet (l : ParamSet) (k : String) (v v2 : JVal) :
    mapSet (mapSet l k v) k v2 = mapSet l k v2 := by
  induction l with
  | nil => rfl
  | cons p rest ih =>
    cases hp : p.1 == k with
    | true => simp [mapSet, hp, ih]
    | false => simp [mapSet, hp, ih]

theorem setKey_setKey (l : ParamSet) (k : String) (v v2 : JVal) :
    setKey (setKey l k v) k v2 = setKey l k v2 := by
  induction l with
  | nil => simp [setKey, mapSet]
  | cons p rest ih =>
    cases hp : p.1 == k with
    | true => simp [setKey, hp, mapSet_mapSet]
    | false => simp [setKey, hp, ih]

theorem mem_setKey_self (l : ParamSet) (k : String) (v : JVal) :
    (k, v) ∈ setKey l k v := by
  induction l with
  | nil => simp [setKey]
  | cons p rest ih =>
    cases hp : p.1 == k with
    | true => simp [setKey, hp]
    | false => simp only [setKey, hp, if_false]; exact List.mem_cons_of_mem _ ih

theorem keys_mapSet (k2 : String) (v : JVal) :
    ∀ (l : ParamSet) (x : String),
      x ∈ (mapSet l k2 v).map Prod.fst → x ∈ l.map Prod.fst ∨ x = k2 := by
  intro l
  induction l with
  | nil => intro x hx; cases hx
  | cons p rest ih =>
    intro x hx
    cases hp : p.1 == k2 with
    | true =>
      simp only [mapSet, hp, if_true, List.map_cons, List.mem_cons] at hx
      rcases hx with hx | hx
      · right; exact hx
      · rcases ih x hx with h | h
        · left; exact List.mem_cons_of_mem _ h
        · right; exact h
    | false =>
      simp only [mapSet, hp, if_false, List.map_cons, List.mem_cons] at hx
      rcases hx with hx | hx
      · left; rw [hx]; exact List.mem_cons_self _ _
      · rcases ih x hx with h | h
        · left; exact List.mem_cons_of_mem _ h
        · right; exact h

theorem keys_setKey (k : String) (v : JVal) :
    ∀ (l : ParamSet) (x : String),
      x ∈ (setKey l k v).map Prod.fst → x ∈ l.map Prod.fst ∨ x = k := by
  intro l
  induction l with
  | nil =>
    intro x hx
    simp only [setKey, List.map_cons, List.map_nil, List.mem_cons] at hx
    rcases hx with hx | hx
    · right; exact hx
    · cases hx
  | cons p rest ih =>
    intro x hx
    cases hp : p.1 == k with
    | true =>
      simp only [setKey, hp, if_true, List.map_cons, List.mem_cons] at hx
      rcases hx with hx | hx
      · right; exact hx
      · rcases keys_mapSet k v rest x hx with h | h
        · left; exact List.mem_cons_of_mem _ h
        · right; exact h
    | false =>
      simp [setKey, hp] at hx
      rcases hx with hx | ⟨y, hy⟩
      · left; simp [hx]
      · have hm : x ∈ (setKey rest k v).map Prod.fst :=
          List.mem_map.mpr ⟨(x, y), hy, rfl⟩
        rcases ih x hm with h | h
        · left; exact List.mem_cons_of_mem _ h
        · right; exact h

theorem recvWindowVal_keep (params : ParamSet) :
    keepVal (recvWindowVal params) = true := by
  unfold recvWindowVal
  split
  · rename_i h
    cases hv : lookupJs params "recvWindow" <;>
      first | rfl | (rw [hv] at h; simp [jsTruthy] at h)
  · rfl

theorem recvWindowVal_setKey_timestamp (p : ParamSet) (v : JVal) :
    recvWindowVal (setKey p "timestamp" v) = recvWindowVal p := by
  unfold recvWindowVal
  rw [lookup_setKey_other p "recvWindow" "timestamp" v (by decide)]

theorem mergeEnvelope_setKey_timestamp (p : ParamSet) (st v : JVal) :
    mergeEnvelope (setKey p "timestamp" v) st = mergeEnvelope p st := by
  unfold mergeEnvelope
  rw [setKey_setKey, recvWindowVal_setKey_timestamp]

theorem lookup_mergeEnvelope_timestamp (p : ParamSet) (st : JVal) :
    lookupJs (mergeEnvelope p st) "timestamp" = st := by
  unfold mergeEnvelope
  rw [lookup_setKey_other _ "timestamp" "recvWindow" _ (by decide), lookup_setKey_self]

theorem lookup_mergeEnvelope_recvWindow (p : ParamSet) (st : JVal) :
    lookupJs (mergeEnvelope p st) "recvWindow" = recvWindowVal p := by
  unfold mergeEnvelope
  rw [lookup_setKey_self]

theorem filter_congr_fun {α : Type} (p q : α → Bool) (h : ∀ a, p a = q a) :
    ∀ l : List α, l.filter p = l.filter q := by
  intro l
  induction l with
  | nil => rfl
  | cons a t ih => simp only [List.filter_cons, h a, ih]

theorem filter_idem {α : Type} (p : α → Bool) :
    ∀ l : List α, (l.filter p).filter p = l.filter p := by
  intro l
  induction l with
  | nil => rfl
  | cons a t ih =>
    cases h : p a with
    | true => simp [List.filter_cons, h, ih]
    | false => simp [List.filter_cons, h, ih]

theorem filter_keep_eq (P : ParamSet) :
    P.filter (fun p => keepVal p.2) = P.filter (fun p => !(isAbsent p.2)) :=
  filter_congr_fun _ _ (fun a => by cases a.2 <;> rfl) P

theorem filter_keep_absent (P : ParamSet) :
    (P.filter (fun p => !(isAbsent p.2))).filter (fun p => keepVal p.2)
      = P.filter (fun p => keepVal p.2) := by
  rw [← filter_keep_eq P]
  exact filter_idem _ P

/-- Claim C1: for every ParameterSet the canonicalizer drops exactly the
null/undefined entries (an empty-string value passes through),
stringifies the remaining values, form-URL-encodes them, and joins
`key=value` pairs with `&` in insertion order with no re-sorting
(shown by equality with the spec-worded `canonicalSpec` and by
invariance under pre-dropping absent entries); `{symbol: "BTCUSDT",
limit: 100}` yields `symbol=BTCUSDT&limit=100`; and canonicalizing the
same ParameterSet twice yields identical strings. -/
theorem claim_C1 :
    (∀ P : ParamSet, buildQueryString P = canonicalSpec P)
  ∧ (∀ P : ParamSet,
      buildQueryString P = buildQueryString (P.filter (fun p => !(isAbsent p.2))))
  ∧ buildQueryString [("symbol", JVal.str "BTCUSDT"), ("limit", JVal.num 100)]
      = "symbol=BTCUSDT&limit=100"
  ∧ buildQueryString [("a", JVal.str ""), ("b", JVal.null), ("c", JVal.undefined), ("d", JVal.num 0)]
      = "a=&d=0"
  ∧ (∀ P : ParamSet, buildQueryString P = buildQueryString P) := by
  refine ⟨?_, ?_, by decide, by decide, fun P => rfl⟩
  · intro P
    rw [buildQueryString_eq_pieces]
    unfold canonicalSpec queryPieces
    rw [filter_keep_eq]
  · intro P
    rw [buildQueryString_eq_pieces, buildQueryString_eq_pieces]
    unfold queryPieces
    rw [filter_keep_absent]

theorem natToBytesBE_length : ∀ k n : Nat, (natToBytesBE k n).length = k := by
  intro k
  induction k with
  | zero => intro n; rfl
  | succ k ih => intro n; simp [natToBytesBE, ih]

theorem digestBytes_length (st : H8) : (digestBytes st).length = 32 := by
  simp [digestBytes, natToBytesBE_length]

theorem sha256_length (m : List Nat) : (sha256 m).length = 32 := by
  unfold sha256
  exact digestBytes_length _

theorem hmacSha256_length (k m : List Nat) : (hmacSha256 k m).length = 32 := by
  unfold hmacSha256
  exact sha256_length _

theorem concat_hex_length (bytes : List Nat) :
    (concatList (bytes.map byteHexString)).length = 2 * bytes.length := by
  induction bytes with
  | nil => rfl
  | cons b bs ih =>
    show (byteHexString b ++ concatList (bs.map byteHexString)).length = 2 * (bs.length + 1)
    rw [String.length_append, ih]
    have h2 : (byteHexString b).length = 2 := rfl
    rw [h2]
    omega

theorem hexDigit_isLower : ∀ m : Fin 16, isLowerHexChar (hexDigit m.val) = true := by decide

theorem byteHex_chars_lower (b : Nat) :
    ∀ c ∈ (byteHexString b).data, isLowerHexChar c = true := by
  intro c hc
  have h1 : b / 16 % 16 < 16 := Nat.mod_lt _ (by decide)
  have h2 : b % 16 < 16 := Nat.mod_lt _ (by decide)
  simp only [byteHexString] at hc
  simp at hc
  rcases hc with rfl | rfl
  · exact hexDigit_isLower ⟨_, h1⟩
  · exact hexDigit_isLower ⟨_, h2⟩

theorem concat_hex_lower (bytes : List Nat) :
    ∀ c ∈ (concatList (bytes.map byteHexString)).data, isLowerHexChar c = true := by
  induction bytes with
  | nil => intro c hc; simp [concatList] at hc
  | cons b bs ih =>
    intro c hc
    simp only [List.map_cons, concatList] at hc
    rw [String.data_append] at hc
    rcases List.mem_append.mp hc with h | h
    · exact byteHex_chars_lower b c h
    · exact ih c h

/-- Claim C2: for every (secret, message) pair of strings the signing
primitive is the (deterministic, pure) HMAC-SHA256 of the UTF-8
message keyed by the UTF-8 secret, and its output is exactly 64
lowercase hexadecimal characters. -/
theorem claim_C2 : ∀ key data : String,
    hmacSha256Hex key data
        = concatList ((hmacSha256 (utf8Encode key) (utf8Encode data)).map byteHexString)
  ∧ (hmacSha256Hex key data).length = 64
  ∧ (hmacSha256Hex key data).data.all isLowerHexChar = true := by
  intro key data
  refine ⟨rfl, ?_, ?_⟩
  · show (concatList ((hmacSha256 (utf8Encode key) (utf8Encode data)).map byteHexString)).length
        = 64
    rw [concat_hex_length, hmacSha256_length]
  · apply List.all_eq_true.mpr
    intro c hc
    exact concat_hex_lower _ c hc

theorem append_sig (qs h : String) :
    qs ++ "&signature=" ++ h = qs ++ "&" ++ ("signature=" ++ h) := by
  rw [String.append_assoc, String.append_assoc]
  rfl

/-- Claim C3: for every signed request the query string on the wire is
the canonical query of the merged envelope followed by a final
`signature=` component whose hex value is the MAC of exactly that
canonical query (computed over the string that precedes the signature,
so the signed substring never contains the appended signature field,
and no `signature` key enters the envelope unless the caller already
supplied one). -/
theorem claim_C3 : ∀ (secret : String) (params : ParamSet) (st : JVal),
    signedQueryString secret params st
        = buildQueryString (mergeEnvelope params st) ++ "&signature="
            ++ hmacSha256Hex secret (buildQueryString (mergeEnvelope params st))
  ∧ signedQueryString secret params st
        = joinAmp (queryPieces (mergeEnvelope params st)
            ++ ["signature="
                  ++ hmacSha256Hex secret (buildQueryString (mergeEnvelope params st))])
  ∧ ("signature" ∉ params.map Prod.fst →
      "signature" ∉ (mergeEnvelope params st).map Prod.fst) := by
  intro secret params st
  refine ⟨rfl, ?_, ?_⟩
  · have hne : queryPieces (mergeEnvelope params st) ≠ [] := by
      have hmem : ("recvWindow", recvWindowVal params) ∈ mergeEnvelope params st :=
        mem_setKey_self _ _ _
      have hf : ("recvWindow", recvWindowVal params)
          ∈ (mergeEnvelope params st).filter (fun p => keepVal p.2) :=
        List.mem_filter.mpr ⟨hmem, recvWindowVal_keep params⟩
      have hp : (formEncode "recvWindow" ++ "=" ++ formEncode (jsToString (recvWindowVal params)))
          ∈ queryPieces (mergeEnvelope params st) := by
        unfold queryPieces
        exact List.mem_map.mpr ⟨_, hf, rfl⟩
      exact List.ne_nil_of_mem hp
    rw [joinAmp_append_last _ _ hne, ← buildQueryString_eq_pieces]
    exact append_sig _ _
  · intro hsig hmerge
    unfold mergeEnvelope at hmerge
    rcases keys_setKey "recvWindow" (recvWindowVal params) _ _ hmerge with h | h
    · rcases keys_setKey "timestamp" st _ _ h with h2 | h2
      · exact hsig h2
      · exact absurd h2 (by decide)
    · exact absurd h (by decide)

theorem claim_C3_witness :
    "signature" ∉ ([("symbol", JVal.str "BTCUSDT")] : ParamSet).map Prod.fst
  ∧ "signature"
      ∉ (mergeEnvelope [("symbol", JVal.str "BTCUSDT")] (JVal.num 1700000000000)).map Prod.fst :=
  ⟨by decide,
   (claim_C3 "topsecret" [("symbol", JVal.str "BTCUSDT")] (JVal.num 1700000000000)).2.2
     (by decide)⟩

/-- Claim C10: the signed request is completely independent of any
caller-supplied `timestamp` entry — overwriting the caller's
`timestamp` with any value before the call leaves the entire outcome
and request trace unchanged — and the merged envelope's `timestamp` is
always exactly the freshly supplied server-time value. -/
theorem claim_C10 : ∀ (cfg : BinanceConfig) (env : Env) (parse : JsonParse)
    (method endpoint : String) (params : ParamSet) (v : JVal),
    signedRequest cfg env parse method endpoint (setKey params "timestamp" v)
      = signedRequest cfg env parse method endpoint params
  ∧ ∀ st : JVal, lookupJs (mergeEnvelope params st) "timestamp" = st := by
  intro cfg env parse method endpoint params v
  constructor
  · unfold signedRequest
    cases hq : publicGet env parse "/api/v3/time" none with
    | mk res tr =>
      cases res with
      | error e => rfl
      | ok j => simp [signedMainRequest, signedQueryString, mergeEnvelope_setKey_timestamp]
  · intro st
    exact lookup_mergeEnvelope_timestamp params st

theorem publicGet_time_ok (env : Env) (parse : JsonParse) (j : JVal)
    (h1 : (env timeRequest).isOk = true)
    (h2 : parse (env timeRequest).body = some j) :
    publicGet env parse "/api/v3/time" none = (.ok j, [timeRequest]) := by
  have hreq : publicRequestOf "/api/v3/time" none = timeRequest := rfl
  simp only [publicGet, hreq, h1, h2]
  rfl

theorem signedRequest_ok (cfg : BinanceConfig) (env : Env) (parse : JsonParse)
    (method endpoint : String) (params : ParamSet) (j : JVal)
    (h1 : (env timeRequest).isOk = true)
    (h2 : parse (env timeRequest).body = some j) :
    signedRequest cfg env parse method endpoint params =
      (authResponseOutcome parse
          (env (signedMainRequest cfg method endpoint params (jsField j "serverTime"))),
       [timeRequest, signedMainRequest cfg method endpoint params (jsField j "serverTime")]) := by
  unfold signedRequest
  rw [publicGet_time_ok env parse j h1 h2]
  exact rfl

/-- Claim C4 counterexample: the claim asserts `recvWindow =
params.recvWindow ?? 5000` so that a caller-supplied 0 is kept; but the
source computes `params.recvWindow || 5000`, so a caller-supplied 0
produces an envelope `recvWindow` of 5000, not 0. -/
theorem claim_C4_counterexample :
    lookupJs (mergeEnvelope [("recvWindow", JVal.num 0)] (JVal.num 1700000000000)) "recvWindow"
        = JVal.num 5000
  ∧ JVal.num 5000 ≠ JVal.num 0 := by
  refine ⟨rfl, ?_⟩
  intro h
  injection h with h2
  omega

/-- Claim C4 (amended): for every signed request the Transport first
fetches the exchange's server time via the unauthenticated GET
`/api/v3/time` and uses exactly that value (never the local clock, which
does not enter the model) as the envelope's `timestamp`; the envelope's
`recvWindow` equals the caller-supplied `recvWindow` when that value is
truthy and 5000 otherwise (`params.recvWindow || 5000`), so a
caller-supplied 0 is replaced by 5000. -/
theorem claim_C4_amended : ∀ (cfg : BinanceConfig) (env : Env) (parse : JsonParse)
    (method endpoint : String) (params : ParamSet) (t : Int),
    (env timeRequest).isOk = true →
    parse (env timeRequest).body = some (JVal.obj [("serverTime", JVal.num t)]) →
      (signedRequest cfg env parse method endpoint params).2
          = [timeRequest, signedMainRequest cfg method endpoint params (JVal.num t)]
    ∧ timeRequest = ⟨"GET", baseUrl ++ "/api/v3/time", [], none⟩
    ∧ lookupJs (mergeEnvelope params (JVal.num t)) "timestamp" = JVal.num t
    ∧ (∀ v : JVal, lookupJs params "recvWindow" = v → jsTruthy v = true →
        lookupJs (mergeEnvelope params (JVal.num t)) "recvWindow" = v)
    ∧ (jsTruthy (lookupJs params "recvWindow") = false →
        lookupJs (mergeEnvelope params (JVal.num t)) "recvWindow" = JVal.num 5000)
    ∧ (lookupJs params "recvWindow" = JVal.num 0 →
        lookupJs (mergeEnvelope params (JVal.num t)) "recvWindow" = JVal.num 5000) := by
  intro cfg env parse method endpoint params t h1 h2
  have hsr := signedRequest_ok cfg env parse method endpoint params _ h1 h2
  refine ⟨?_, rfl, lookup_mergeEnvelope_timestamp params _, ?_, ?_, ?_⟩
  · rw [hsr]
    exact rfl
  · intro v hv htr
    rw [lookup_mergeEnvelope_recvWindow]
    simp [recvWindowVal, hv, htr]
  · intro hfalse
    rw [lookup_mergeEnvelope_recvWindow]
    simp [recvWindowVal, hfalse]
  · intro h0
    rw [lookup_mergeEnvelope_recvWindow]
    simp [recvWindowVal, h0, jsTruthy]

theorem claim_C4_witness :
    (envMainEmpty timeRequest).isOk = true
  ∧ parseW (envMainEmpty timeRequest).body
      = some (JVal.obj [("serverTime", JVal.num 1700000000000)])
  ∧ (signedRequest ⟨"k", "s"⟩ envMainEmpty parseW "POST" "/api/v3/order" []).2
      = [timeRequest,
         signedMainRequest ⟨"k", "s"⟩ "POST" "/api/v3/order" [] (JVal.num 1700000000000)] := by
  refine ⟨rfl, rfl, ?_⟩
  exact (claim_C4_amended ⟨"k", "s"⟩ envMainEmpty parseW "POST" "/api/v3/order" []
    1700000000000 rfl rfl).1

/-- Claim C5: for every signed request, GET and DELETE carry the signed
query string in the URL and send no body, POST sends the signed query
string as the body with the form-urlencoded content type and a URL
without query, and every signed request carries the `X-MBX-APIKEY`
header; the wire trace is the time request followed by exactly this
main request. -/
theorem claim_C5 : ∀ (cfg : BinanceConfig) (env : Env) (parse : JsonParse)
    (method endpoint : String) (params : ParamSet) (st : JVal) (j : JVal),
    ((method = "GET" ∨ method = "DELETE") →
       (signedMainRequest cfg method endpoint params st).url
           = baseUrl ++ endpoint ++ "?" ++ signedQueryString cfg.secretKey params st
     ∧ (signedMainRequest cfg method endpoint params st).body = none)
  ∧ (method = "POST" →
       (signedMainRequest cfg method endpoint params st).url = baseUrl ++ endpoint
     ∧ (signedMainRequest cfg method endpoint params st).body
           = some (signedQueryString cfg.secretKey params st)
     ∧ ("Content-Type", "application/x-www-form-urlencoded")
           ∈ (signedMainRequest cfg method endpoint params st).headers)
  ∧ ("X-MBX-APIKEY", cfg.apiKey) ∈ (signedMainRequest cfg method endpoint params st).headers
  ∧ ((env timeRequest).isOk = true → parse (env timeRequest).body = some j →
       (signedRequest cfg env parse method endpoint params).2
         = [timeRequest, signedMainRequest cfg method endpoint params (jsField j "serverTime")]) := by
  intro cfg env parse method endpoint params st j
  refine ⟨?_, ?_, ?_, ?_⟩
  · rintro (rfl | rfl) <;> exact ⟨rfl, rfl⟩
  · rintro rfl
    refine ⟨rfl, rfl, ?_⟩
    simp [signedMainRequest]
  · have hh : (signedMainRequest cfg method endpoint params st).headers
        = if method == "POST" then
            [("X-MBX-APIKEY", cfg.apiKey),
             ("Content-Type", "application/x-www-form-urlencoded")]
          else [("X-MBX-APIKEY", cfg.apiKey)] := rfl
    rw [hh]
    split <;> simp
  · intro h1 h2
    rw [signedRequest_ok cfg env parse method endpoint params j h1 h2]

theorem claim_C5_witness :
    (signedMainRequest ⟨"k", "s"⟩ "GET" "/api/v3/account" [] (JVal.num 1700000000000)).body = none
  ∧ (envMainEmpty timeRequest).isOk = true
  ∧ (signedRequest ⟨"k", "s"⟩ envMainEmpty parseW "GET" "/api/v3/account" []).2
      = [timeRequest,
         signedMainRequest ⟨"k", "s"⟩ "GET" "/api/v3/account" []
           (jsField timeJsonVal "serverTime")] := by
  refine ⟨?_, rfl, ?_⟩
  · exact ((claim_C5 ⟨"k", "s"⟩ envMainEmpty parseW "GET" "/api/v3/account" []
      (JVal.num 1700000000000) timeJsonVal).1 (Or.inl rfl)).2
  · exact (claim_C5 ⟨"k", "s"⟩ envMainEmpty parseW "GET" "/api/v3/account" []
      (JVal.num 1700000000000) timeJsonVal).2.2.2 rfl rfl

theorem authOutcome_empty (parse : JsonParse) (resp : HttpResponse)
    (h1 : resp.isOk = true) (h2 : resp.body = "") :
    authResponseOutcome parse resp = .ok (.obj []) := by
  simp [authResponseOutcome, h1, h2]

theorem authOutcome_badjson (parse : JsonParse) (resp : HttpResponse)
    (h1 : resp.isOk = true) (h2 : resp.body ≠ "") (h3 : parse resp.body = none) :
    authResponseOutcome parse resp = .error jsonSyntaxError := by
  have hb : (resp.body == "") = false := by
    cases hbe : resp.body == "" with
    | true => exact absurd (eq_of_beq hbe) h2
    | false => rfl
  simp [authResponseOutcome, h1, hb, h3]

theorem authOutcome_error_msg (parse : JsonParse) (resp : HttpResponse) (ev : JVal) (m : String)
    (h1 : resp.isOk = false) (h2 : parse resp.body = some ev)
    (h3 : jsField ev "msg" = .str m) (h4 : jsTruthy (JVal.str m) = true) :
    authResponseOutcome parse resp = .error (errorMessage resp.status m) := by
  simp [authResponseOutcome, h1, h2, errDetailAuth, jsOrElse, h3, h4, jsToString]

theorem authOutcome_error_code (parse : JsonParse) (resp : HttpResponse) (ev : JVal) (c : Int)
    (h1 : resp.isOk = false) (h2 : parse resp.body = some ev)
    (h3 : jsTruthy (jsField ev "msg") = false) (h4 : jsField ev "code" = .num c)
    (h5 : jsTruthy (JVal.num c) = true) :
    authResponseOutcome parse resp = .error (errorMessage resp.status (toString c)) := by
  simp [authResponseOutcome, h1, h2, errDetailAuth, jsOrElse, h3, h4, h5, jsToString]

theorem authOutcome_error_fallback (parse : JsonParse) (resp : HttpResponse)
    (h1 : resp.isOk = false) (h2 : parse resp.body = none) :
    authResponseOutcome parse resp = .error (errorMessage resp.status resp.statusText) := by
  simp [authResponseOutcome, h1, h2, errDetailAuth, jsField, lookupJs, jsOrElse, jsTruthy,
    jsToString, List.find?]

/-- Claim C6: on a success status, an empty response body yields the
empty-object success without any JSON parsing (the result is the same
for every parse function), while a non-empty unparseable body is an
error, for both the signed and the user-stream transports; in
particular the facade's test-order call returns the empty success
object when the remote answers 200 with an empty body. -/
theorem claim_C6 : ∀ (cfg : BinanceConfig) (env : Env) (parse : JsonParse)
    (method endpoint : String) (params : ParamSet) (pp : Option ParamSet) (j : JVal),
    ((env timeRequest).isOk = true →
     parse (env timeRequest).body = some j →
     (env (signedMainRequest cfg method endpoint params (jsField j "serverTime"))).isOk = true →
     (env (signedMainRequest cfg method endpoint params (jsField j "serverTime"))).body = "" →
       (signedRequest cfg env parse method endpoint params).1 = .ok (.obj []))
  ∧ ((env timeRequest).isOk = true →
     parse (env timeRequest).body = some j →
     (env (signedMainRequest cfg method endpoint params (jsField j "serverTime"))).isOk = true →
     (env (signedMainRequest cfg method endpoint params (jsField j "serverTime"))).body ≠ "" →
     parse (env (signedMainRequest cfg method endpoint params (jsField j "serverTime"))).body
         = none →
       (signedRequest cfg env parse method endpoint params).1 = .error jsonSyntaxError)
  ∧ ((env (userStreamRequestOf cfg method endpoint pp)).isOk = true →
     (env (userStreamRequestOf cfg method endpoint pp)).body = "" →
       (userStreamRequest cfg env parse method endpoint pp).1 = .ok (.obj []))
  ∧ ((env (userStreamRequestOf cfg method endpoint pp)).isOk = true →
     (env (userStreamRequestOf cfg method endpoint pp)).body ≠ "" →
     parse (env (userStreamRequestOf cfg method endpoint pp)).body = none →
       (userStreamRequest cfg env parse method endpoint pp).1 = .error jsonSyntaxError)
  ∧ ((env timeRequest).isOk = true →
     parse (env timeRequest).body = some j →
     (env (signedMainRequest cfg "POST" "/api/v3/order/test" params
         (jsField j "serverTime"))).isOk = true →
     (env (signedMainRequest cfg "POST" "/api/v3/order/test" params
         (jsField j "serverTime"))).body = "" →
       (testOrder cfg env parse params).1 = .ok (.obj [])) := by
  intro cfg env parse method endpoint params pp j
  refine ⟨?_, ?_, ?_, ?_, ?_⟩
  · intro h1 h2 h3 h4
    rw [signedRequest_ok cfg env parse method endpoint params j h1 h2]
    exact authOutcome_empty parse _ h3 h4
  · intro h1 h2 h3 h4 h5
    rw [signedRequest_ok cfg env parse method endpoint params j h1 h2]
    exact authOutcome_badjson parse _ h3 h4 h5
  · intro h1 h2
    exact authOutcome_empty parse _ h1 h2
  · intro h1 h2 h3
    exact authOutcome_badjson parse _ h1 h2 h3
  · intro h1 h2 h3 h4
    show (signedRequest cfg env parse "POST" "/api/v3/order/test" params).1 = .ok (.obj [])
    rw [signedRequest_ok cfg env parse "POST" "/api/v3/order/test" params j h1 h2]
    exact authOutcome_empty parse _ h3 h4

theorem claim_C6_witness :
    (envMainEmpty timeRequest).isOk = true
  ∧ (envMainEmpty (signedMainRequest ⟨"k", "s"⟩ "POST" "/api/v3/order/test"
      [("symbol", JVal.str "BTCUSDT")] (jsField timeJsonVal "serverTime"))).body = ""
  ∧ (testOrder ⟨"k", "s"⟩ envMainEmpty parseW [("symbol", JVal.str "BTCUSDT")]).1
      = .ok (.obj []) := by
  refine ⟨rfl, rfl, ?_⟩
  exact (claim_C6 ⟨"k", "s"⟩ envMainEmpty parseW "POST" "/api/v3/order/test"
    [("symbol", JVal.str "BTCUSDT")] none timeJsonVal).2.2.2.2 rfl rfl rfl rfl

theorem publicGet_error_msg (env : Env) (parse : JsonParse) (endpoint : String)
    (pp : Option ParamSet) (ev : JVal) (m : String)
    (h1 : (env (publicRequestOf endpoint pp)).isOk = false)
    (h2 : parse (env (publicRequestOf endpoint pp)).body = some ev)
    (h3 : jsField ev "msg" = .str m) (h4 : jsTruthy (JVal.str m) = true) :
    (publicGet env parse endpoint pp).1
      = .error (errorMessage (env (publicRequestOf endpoint pp)).status m) := by
  simp [publicGet, h1, h2, errDetailPublic, jsOrElse, h3, h4, jsToString]

theorem publicGet_error_fallback (env : Env) (parse : JsonParse) (endpoint : String)
    (pp : Option ParamSet)
    (h1 : (env (publicRequestOf endpoint pp)).isOk = false)
    (h2 : parse (env (publicRequestOf endpoint pp)).body = none) :
    (publicGet env parse endpoint pp).1
      = .error (errorMessage (env (publicRequestOf endpoint pp)).status
          (env (publicRequestOf endpoint pp)).statusText) := by
  simp [publicGet, h1, h2, errDetailPublic, jsField, lookupJs, jsOrElse, jsTruthy,
    jsToString, List.find?]

/-- Claim C7: every public, signed, or user-stream response with a
non-success status raises an error carrying the HTTP status and the
exchange-supplied `msg` (or `code` for the authenticated transports)
when the body parses as JSON, falling back to the HTTP status text when
the body is unparseable; no failure is swallowed. -/
theorem claim_C7 : ∀ (cfg : BinanceConfig) (env : Env) (parse : JsonParse)
    (method endpoint : String) (params : ParamSet) (pp : Option ParamSet)
    (j ev : JVal) (m : String) (c : Int),
    ((env (publicRequestOf endpoint pp)).isOk = false →
     parse (env (publicRequestOf endpoint pp)).body = some ev →
     jsField ev "msg" = .str m → jsTruthy (JVal.str m) = true →
       (publicGet env parse endpoint pp).1
         = .error (errorMessage (env (publicRequestOf endpoint pp)).status m))
  ∧ ((env (publicRequestOf endpoint pp)).isOk = false →
     parse (env (publicRequestOf endpoint pp)).body = none →
       (publicGet env parse endpoint pp).1
         = .error (errorMessage (env (publicRequestOf endpoint pp)).status
             (env (publicRequestOf endpoint pp)).statusText))
  ∧ ((env timeRequest).isOk = true →
     parse (env timeRequest).body = some j →
     (env (signedMainRequest cfg method endpoint params (jsField j "serverTime"))).isOk = false →
     parse (env (signedMainRequest cfg method endpoint params (jsField j "serverTime"))).body
         = some ev →
     jsField ev "msg" = .str m → jsTruthy (JVal.str m) = true →
       (signedRequest cfg env parse method endpoint params).1
         = .error (errorMessage
             (env (signedMainRequest cfg method endpoint params (jsField j "serverTime"))).status
             m))
  ∧ ((env timeRequest).isOk = true →
     parse (env timeRequest).body = some j →
     (env (signedMainRequest cfg method endpoint params (jsField j "serverTime"))).isOk = false →
     parse (env (signedMainRequest cfg method endpoint params (jsField j "serverTime"))).body
         = some ev →
     jsTruthy (jsField ev "msg") = false → jsField ev "code" = .num c →
     jsTruthy (JVal.num c) = true →
       (signedRequest cfg env parse method endpoint params).1
         = .error (errorMessage
             (env (signedMainRequest cfg method endpoint params (jsField j "serverTime"))).status
             (toString c)))
  ∧ ((env timeRequest).isOk = true →
     parse (env timeRequest).body = some j →
     (env (signedMainRequest cfg method endpoint params (jsField j "serverTime"))).isOk = false →
     parse (env (signedMainRequest cfg method endpoint params (jsField j "serverTime"))).body
         = none →
       (signedRequest cfg env parse method endpoint params).1
         = .error (errorMessage
             (env (signedMainRequest cfg method endpoint params (jsField j "serverTime"))).status
             (env (signedMainRequest cfg method endpoint params
                (jsField j "serverTime"))).statusText))
  ∧ ((env (userStreamRequestOf cfg method endpoint pp)).isOk = false →
     parse (env (userStreamRequestOf cfg method endpoint pp)).body = some ev →
     jsField ev "msg" = .str m → jsTruthy (JVal.str m) = true →
       (userStreamRequest cfg env parse method endpoint pp).1
         = .error (errorMessage (env (userStreamRequestOf cfg method endpoint pp)).status m)) := by
  intro cfg env parse method endpoint params pp j ev m c
  refine ⟨?_, ?_, ?_, ?_, ?_, ?_⟩
  · intro h1 h2 h3 h4
    exact publicGet_error_msg env parse endpoint pp ev m h1 h2 h3 h4
  · intro h1 h2
    exact publicGet_error_fallback env parse endpoint pp h1 h2
  · intro h1 h2 h3 h4 h5 h6
    rw [signedRequest_ok cfg env parse method endpoint params j h1 h2]
    exact authOutcome_error_msg parse _ ev m h3 h4 h5 h6
  · intro h1 h2 h3 h4 h5 h6 h7
    rw [signedRequest_ok cfg env parse method endpoint params j h1 h2]
    exact authOutcome_error_code parse _ ev c h3 h4 h5 h6 h7
  · intro h1 h2 h3 h4
    rw [signedRequest_ok cfg env parse method endpoint params j h1 h2]
    exact authOutcome_error_fallback parse _ h3 h4
  · intro h1 h2 h3 h4
    exact authOutcome_error_msg parse _ ev m h1 h2 h3 h4

theorem claim_C7_witness :
    (envConst400 (publicRequestOf "/api/v3/depth" (some [("symbol", JVal.str "XXXYYY")]))).status
        = 400
  ∧ (publicGet envConst400 parseW "/api/v3/depth" (some [("symbol", JVal.str "XXXYYY")])).1
      = .error (errorMessage 400 "Invalid symbol.") := by
  refine ⟨rfl, ?_⟩
  exact (claim_C7 ⟨"k", "s"⟩ envConst400 parseW "GET" "/api/v3/depth" []
    (some [("symbol", JVal.str "XXXYYY")]) timeJsonVal
    (JVal.obj [("code", JVal.num (-1121)), ("msg", JVal.str "Invalid symbol.")])
    "Invalid symbol." (-1121)).1 rfl rfl rfl rfl

/-- Claim C8: invoking any non-public (SIGNED or USER_STREAM) tool with
a missing credential — in particular a pair missing the secret key —
fails locally with the descriptive credential error and an empty
request trace: no network call is ever issued. -/
theorem claim_C8 : ∀ (config : Option BinanceConfig) (env : Env) (parse : JsonParse)
    (toolName : String) (args : ParamSet),
    (publicTools.contains toolName = false →
     jsTruthy (effectiveCred (config.map (fun c => c.secretKey))
         (lookupJs args "BINANCE_SECRET_KEY")) = false →
       toolCallGate config env parse toolName args = (.error credErrorText, []))
  ∧ (publicTools.contains toolName = false →
     jsTruthy (effectiveCred (config.map (fun c => c.apiKey))
         (lookupJs args "BINANCE_API_KEY")) = false →
       toolCallGate config env parse toolName args = (.error credErrorText, []))
  ∧ (∀ (env2 : Env) (parse2 : JsonParse),
       toolCallGate (some ⟨"k", ""⟩) env2 parse2 "bn_new_order" []
         = (.error credErrorText, [])) := by
  intro config env parse toolName args
  refine ⟨?_, ?_, ?_⟩
  · intro hpub hsec
    simp only [toolCallGate]
    rw [hpub, hsec]
    simp
  · intro hpub hapi
    simp only [toolCallGate]
    rw [hpub, hapi]
    simp
  · intro env2 parse2
    rfl

theorem claim_C8_witness :
    publicTools.contains "bn_account_info" = false
  ∧ jsTruthy (effectiveCred ((some (⟨"k", ""⟩ : BinanceConfig)).map (fun c => c.secretKey))
        (lookupJs [] "BINANCE_SECRET_KEY")) = false
  ∧ toolCallGate (some ⟨"k", ""⟩) envMainEmpty parseW "bn_account_info" []
      = (.error credErrorText, []) := by
  refine ⟨rfl, rfl, ?_⟩
  exact (claim_C8 (some ⟨"k", ""⟩) envMainEmpty parseW "bn_account_info" []).1 rfl rfl

/-- Claim C9: the parameter mapping the dispatch layer computes and
forwards to the facade is exactly the caller's argument mapping with
the metadata-only `_fields` key removed — nothing else is added,
removed or changed (order preserved), and the core never sees
`_fields`: every facade call in the dispatch receives precisely this
stripped mapping (tools whose facade method takes no parameter object,
and the listen-key tools which take the single `listenKey` value, have
no mapping to forward). -/
theorem claim_C9 : ∀ (cfg : BinanceConfig) (env : Env) (parse : JsonParse) (args : ParamSet),
    "_fields" ∉ (stripFields args).map Prod.fst
  ∧ (∀ (k : String) (v : JVal), k ≠ "_fields" →
      ((k, v) ∈ stripFields args ↔ (k, v) ∈ args))
  ∧ (stripFields args).Sublist args
  ∧ ("_fields" ∉ args.map Prod.fst → stripFields args = args)
  ∧ handleToolCall cfg env parse "bn_exchange_info" args
      = getExchangeInfo env parse (nonemptyOrNone (stripFields args))
  ∧ handleToolCall cfg env parse "bn_order_book" args
      = getOrderBook env parse (stripFields args)
  ∧ handleToolCall cfg env parse "bn_recent_trades" args
      = getRecentTrades env parse (stripFields args)
  ∧ handleToolCall cfg env parse "bn_aggregate_trades" args
      = getAggregateTrades env parse (stripFields args)
  ∧ handleToolCall cfg env parse "bn_klines" args = getKlines env parse (stripFields args)
  ∧ handleToolCall cfg env parse "bn_avg_price" args = getAvgPrice env parse (stripFields args)
  ∧ handleToolCall cfg env parse "bn_ticker_24hr" args
      = getTicker24hr env parse (nonemptyOrNone (stripFields args))
  ∧ handleToolCall cfg env parse "bn_ticker_price" args
      = getTickerPrice env parse (nonemptyOrNone (stripFields args))
  ∧ handleToolCall cfg env parse "bn_book_ticker" args
      = getBookTicker env parse (nonemptyOrNone (stripFields args))
  ∧ handleToolCall cfg env parse "bn_new_order" args = newOrder cfg env parse (stripFields args)
  ∧ handleToolCall cfg env parse "bn_test_order" args
      = testOrder cfg env parse (stripFields args)
  ∧ handleToolCall cfg env parse "bn_query_order" args
      = queryOrder cfg env parse (stripFields args)
  ∧ handleToolCall cfg env parse "bn_cancel_order" args
      = cancelOrder cfg env parse (stripFields args)
  ∧ handleToolCall cfg env parse "bn_cancel_all_orders" args
      = cancelAllOrders cfg env parse (stripFields args)
  ∧ handleToolCall cfg env parse "bn_open_orders" args
      = getOpenOrders cfg env parse (nonemptyOrNone (stripFields args))
  ∧ handleToolCall cfg env parse "bn_all_orders" args
      = getAllOrders cfg env parse (stripFields args)
  ∧ handleToolCall cfg env parse "bn_account_info" args
      = getAccountInfo cfg env parse (nonemptyOrNone (stripFields args))
  ∧ handleToolCall cfg env parse "bn_my_trades" args
      = getMyTrades cfg env parse (stripFields args) := by
  intro cfg env parse args
  refine ⟨?_, ?_, List.filter_sublist args, ?_, rfl, rfl, rfl, rfl, rfl, rfl, rfl, rfl, rfl,
    rfl, rfl, rfl, rfl, rfl, rfl, rfl, rfl, rfl⟩
  · intro hmem
    rcases List.mem_map.mp hmem with ⟨p, hp, hfst⟩
    have hpred := (List.mem_filter.mp hp).2
    rw [hfst] at hpred
    simp at hpred
  · intro k v hk
    have hbeq : (k == "_fields") = false := beq_eq_false_iff_ne.mpr hk
    constructor
    · intro h
      exact (List.mem_filter.mp h).1
    · intro h
      exact List.mem_filter.mpr ⟨h, by simp [hbeq]⟩
  · intro hnf
    apply List.filter_eq_self.mpr
    intro a ha
    have hne : a.1 ≠ "_fields" := fun he => hnf (List.mem_map.mpr ⟨a, ha, he⟩)
    simp [beq_eq_false_iff_ne.mpr hne]

theorem claim_C9_witness :
    ("limit", JVal.num 100)
        ∈ stripFields [("_fields", JVal.str "x"), ("limit", JVal.num 100)]
  ∧ "_fields" ∉ ([("symbol", JVal.str "B")] : ParamSet).map Prod.fst
  ∧ stripFields [("symbol", JVal.str "B")] = [("symbol", JVal.str "B")] := by
  have hm : ("limit", JVal.num 100)
      ∈ ([("_fields", JVal.str "x"), ("limit", JVal.num 100)] : ParamSet) :=
    List.mem_cons_of_mem _ (List.mem_cons_self _ _)
  refine ⟨?_, by decide, ?_⟩
  · exact ((claim_C9 ⟨"k", "s"⟩ envMainEmpty parseW
      [("_fields", JVal.str "x"), ("limit", JVal.num 100)]).2.1 "limit" (JVal.num 100)
        (by decide)).mpr hm
  · exact (claim_C9 ⟨"k", "s"⟩ envMainEmpty parseW [("symbol", JVal.str "B")]).2.2.2.1
      (by decide)
